import Mathlib

/-!
# Verification of the Logseq outline renderer

A shallow embedding of `src/python/logseq_doctor/__init__.py` (the
`LogseqRenderer` class and its helpers) together with theorems about the
flat-Markdown-to-outline transformation.

Modelling conventions:
* Python strings are Lean `String`s; the Python string operations used by the
  renderer (`strip`, `lstrip`, `splitlines`, `split`, slicing, `join`,
  repetition with `*`) are re-implemented below on the underlying character
  list with structural recursion, so that concrete renders evaluate by `rfl`.
* `os.linesep` is fixed to the POSIX convention `"\n"` (one platform,
  applied consistently, as the renderer does).
* The mutable field `self.current_level` is threaded explicitly as an `Int`
  state (Python integers are unbounded and signed).
* The `assert` in `render_block_code` is modelled with `Except`: a failing
  assertion is `.error` carrying the assertion message, and no output is
  produced for that render call.
* The mistletoe token tree is modelled by the inductive types `Inline`,
  `Block` and `ListItem` below, mirroring the node kinds the renderer
  dispatches on. `BlockCode` children are modelled by the list of their
  `content` strings (the code only reads `len(token.children)` and
  `token.children[0].content`). Heading levels from the parser are 1..6.
-/

namespace LogseqDoctor

/-- `os.linesep` on POSIX platforms. -/
def linesep : String := "\n"

/-- `constants.CHAR_DASH`. -/
def CHAR_DASH : String := "-"

/-- `constants.CHARS_UL_LEADER`, the leaders marking an unordered list. -/
def CHARS_UL_LEADER : List String := ["*", "-"]

/-- `constants.OL_MARKER`, the literal marker bullet text for ordered lists. -/
def OL_MARKER : String := "#.ol"

/-- `self.bullet` as set in `LogseqRenderer.__init__`. -/
def bullet : String := "- "

/-- `self.continuation` as set in `LogseqRenderer.__init__`. -/
def continuation : String := "  "

/-! ## Python string primitives (structural re-implementations) -/

/-- `n`-fold repetition of a string (helper for `pyRepeat`). -/
def pyRepeatNat (s : String) : Nat → String
  | 0 => ""
  | k + 1 => s ++ pyRepeatNat s k

/-- Python `s * n` for a string and an integer (negative counts give `""`). -/
def pyRepeat (s : String) (n : Int) : String :=
  pyRepeatNat s n.toNat

/-- The ASCII whitespace characters stripped by Python `str.strip()`
(inputs handled by the renderer are ASCII-whitespace only). -/
def isPyWs (c : Char) : Bool :=
  c = ' ' || c = '\t' || c = '\n' || c = '\r' || c = '\x0b' || c = '\x0c'

/-- Python `str.strip()` (no argument): drop whitespace from both ends. -/
def pyStrip (s : String) : String :=
  String.mk (((s.data.dropWhile isPyWs).reverse.dropWhile isPyWs).reverse)

/-- Python `str.lstrip(chars)`: drop the maximal leading run of characters
belonging to the set `chars`. -/
def pyLstrip (chars : List Char) (s : String) : String :=
  String.mk (s.data.dropWhile (· ∈ chars))

/-- Helper for `pySplitChar`: split a character list at every separator,
keeping empty parts (Python `str.split(sep)` semantics). -/
def splitCharAux (sep : Char) : List Char → List Char → List String
  | [], acc => [String.mk acc.reverse]
  | c :: rest, acc =>
      if c = sep then String.mk acc.reverse :: splitCharAux sep rest []
      else splitCharAux sep rest (c :: acc)

/-- Python `s.split(sep)` for a one-character separator: all parts kept,
`"".split(sep) = [""]`. -/
def pySplitChar (sep : Char) (s : String) : List String :=
  splitCharAux sep s.data []

/-- Python `str.splitlines()` for `"\n"`-terminated text: like splitting on
`'\n'` but without a trailing empty part, and `[]` on the empty string. -/
def pySplitlines (s : String) : List String :=
  let parts := pySplitChar '\n' s
  if parts.getLast? = some "" then parts.dropLast else parts

/-- Python `sep.join(xs)`. -/
def pyJoin (sep : String) : List String → String
  | [] => ""
  | [x] => x
  | x :: y :: rest => x ++ sep ++ pyJoin sep (y :: rest)

/-- Python slice `s[0:k]` (a negative `k` counts from the end of `s`). -/
def pySliceTo (s : String) (k : Int) : String :=
  if 0 ≤ k then String.mk (s.data.take k.toNat)
  else String.mk (s.data.take ((s.data.length : Int) + k).toNat)

/-- Python slice `s[k:]` (a negative `k` counts from the end of `s`). -/
def pySliceFrom (s : String) (k : Int) : String :=
  if 0 ≤ k then String.mk (s.data.drop k.toNat)
  else String.mk (s.data.drop ((s.data.length : Int) + k).toNat)

/-- Python slice `s[0:-1]`: everything but the last character. -/
def pyDropLastChar (s : String) : String :=
  String.mk s.data.dropLast

/-! ## The document tree (mistletoe tokens consumed by the renderer) -/

/-- Inline (span) tokens. `rawText` carries `token.content`; containers carry
their child sequences; `image` carries `token.title`/`token.src`; `link` and
`autoLink` carry `token.target`; `lineBreak` and `htmlSpan` carry
`token.content`. -/
inductive Inline where
  | rawText (content : String)
  | strong (children : List Inline)
  | emphasis (children : List Inline)
  | inlineCode (children : List Inline)
  | strikethrough (children : List Inline)
  | link (target : String) (children : List Inline)
  | image (title : String) (src : String)
  | autoLink (target : String)
  | lineBreak (content : String)
  | htmlSpan (content : String)

/-- A table cell is its sequence of inline children. -/
abbrev TableCell := List Inline

/-- A table row is its sequence of cells. -/
abbrev TableRow := List TableCell

mutual
/-- Block tokens. `heading` carries `token.level` (1..6 from the parser) and
its inline children; `blockCode` carries `token.language` and the list of the
`content` strings of its children; `table` carries the optional header row and
the body rows. -/
inductive Block where
  | heading (level : Nat) (children : List Inline)
  | setextHeading (children : List Inline)
  | paragraph (children : List Inline)
  | quote (children : List Block)
  | blockCode (language : String) (children : List String)
  | thematicBreak
  | list (children : List ListItem)
  | table (header : Option TableRow) (children : List TableRow)

/-- A list item: its `leader` string (e.g. `"-"`, `"*"`, `"1."`) and its
block children. -/
inductive ListItem where
  | mk (leader : String) (children : List Block)
end

/-- The `leader` attribute of a list item. -/
def ListItem.leader : ListItem → String
  | .mk leader _ => leader

/-- The `children` attribute of a list item. -/
def ListItem.children : ListItem → List Block
  | .mk _ children => children

/-! ## The renderer -/

/-- `LogseqRenderer.outline`: render a line of text with the correct
indentation. -/
def outline (indent : Int) (text : String) (isCont : Bool := false)
    (nl : Bool := true) : String :=
  let leading_spaces := pyRepeat "  " indent
  let new_line_at_the_end := if nl then linesep else ""
  leading_spaces ++ (if isCont then continuation else bullet) ++ text
    ++ new_line_at_the_end

mutual
/-- The span render methods of `LogseqRenderer`/`BaseRenderer`:
`render_raw_text` returns `token.content`; `render_strong`,
`render_emphasis`, `render_inline_code` wrap; `render_strikethrough` returns
the bare inner text (the f-string in the source adds nothing);
`render_link`, `render_image`, `render_auto_link`, `render_line_break`,
`render_html_span` as in the source. -/
def renderInline : Inline → String
  | .rawText content => content
  | .strong children => "**" ++ renderInlines children ++ "**"
  | .emphasis children => "*" ++ renderInlines children ++ "*"
  | .inlineCode children => "`" ++ renderInlines children ++ "`"
  | .strikethrough children => renderInlines children
  | .link target children => "[" ++ renderInlines children ++ "](" ++ target ++ ")"
  | .image title src => "![" ++ title ++ "](" ++ src ++ ")"
  | .autoLink target => "<" ++ target ++ ">"
  | .lineBreak content => content ++ linesep
  | .htmlSpan content => content

/-- `BaseRenderer.render_inner` for span tokens: concatenate child renders. -/
def renderInlines : List Inline → String
  | [] => ""
  | i :: rest => renderInline i ++ renderInlines rest
end

/-- `LogseqRenderer.render_table_cell`. -/
def render_table_cell (cell : TableCell) : String :=
  "| " ++ renderInlines cell ++ " "

/-- `LogseqRenderer.render_table_row` (reads `self.current_level`). -/
def render_table_row (level : Int) (row : TableRow)
    (is_header : Bool := false) : String :=
  let result := String.join (row.map render_table_cell) ++ "|"
  if is_header then
    result ++ linesep
      ++ outline level (pyRepeat "| --- " (row.length : Int) ++ "|") true
  else
    outline level result true

/-- `LogseqRenderer.render_table` (reads `self.current_level`). -/
def render_table (level : Int) (header : Option TableRow)
    (rows : List TableRow) : String :=
  let headerPart := match header with
    | some h => render_table_row level h true
    | none => ""
  let rowsStr := String.join (rows.map (fun r => render_table_row level r))
  outline level (headerPart ++ pyDropLastChar rowsStr)

mutual
/-- The block render methods of `LogseqRenderer` (`render_heading`,
`render_paragraph`, `render_quote`, `render_block_code`,
`render_thematic_break`, `render_list`, `render_table`), with
`self.current_level` threaded as explicit state: `renderBlock b l = .ok
(text, l')` means the method returned `text` and left `current_level` at
`l'`; `.error` is a failed `assert`. -/
def renderBlock : Block → Int → Except String (String × Int)
  | .heading level children, _l =>
      let hashes := pyRepeat "#" (level : Int)
      let inner := renderInlines children
      .ok (outline ((level : Int) - 1) (hashes ++ " " ++ inner), (level : Int))
  | .setextHeading children, l =>
      .ok (renderInlines children ++ linesep ++ pyRepeat CHAR_DASH 3
        ++ linesep, l)
  | .paragraph children, l =>
      let input_lines := pySplitlines (pyStrip (renderInlines children))
      let output_lines := input_lines.map (fun line => outline l line false false)
      .ok (pyJoin linesep output_lines ++ linesep, l)
  | .quote children, l =>
      match renderBlocks children l with
      | .error e => .error e
      | .ok (inner, l') =>
        let prefix_chars : Int := l' * 2 + 2
        let prefixed := (pySplitChar '\n' inner).map (fun line =>
          if line ≠ "" then
            pySliceTo line prefix_chars ++ "> " ++ pySliceFrom line prefix_chars
          else "")
        .ok (pyJoin linesep prefixed, l')
  | .blockCode language children, l =>
      match children with
      | [content] =>
        let inner := String.join ((pySplitlines content).map
          (fun s => outline l s true))
        let close := outline l "```" true
        .ok (outline l ("```" ++ language ++ linesep ++ inner ++ close), l)
      | _ => .error "BlockCode should have only one child."
  | .thematicBreak, l =>
      .ok (pyRepeat CHAR_DASH 3 ++ linesep, l)
  | .list items, l =>
      let ol := match items with
        | [] => false
        | first :: _ => !(CHARS_UL_LEADER.contains first.leader)
      let ol_marker := if ol then outline l OL_MARKER else ""
      let l₁ := if ol then l + 1 else l
      match renderItems items l₁ with
      | .error e => .error e
      | .ok (inner, l₂) =>
        .ok (ol_marker ++ inner, if ol then l₂ - 1 else l₂)
  | .table header rows, l =>
      .ok (render_table l header rows, l)

/-- `LogseqRenderer.render_list_item`. -/
def renderItem : ListItem → Int → Except String (String × Int)
  | .mk _leader children, l =>
      if children.length ≤ 1 then renderBlocks children l
      else
        match renderBlocks children (l + 1) with
        | .error e => .error e
        | .ok (inner, l') =>
          let headless_parent_with_children := pyLstrip ['-', ' '] inner
          .ok (outline (l' - 1) headless_parent_with_children false false,
            l' - 1)

/-- `BaseRenderer.render_inner` for block children: concatenate the renders
left to right, threading `current_level`. -/
def renderBlocks : List Block → Int → Except String (String × Int)
  | [], l => .ok ("", l)
  | b :: rest, l =>
      match renderBlock b l with
      | .error e => .error e
      | .ok (s, l') =>
        match renderBlocks rest l' with
        | .error e => .error e
        | .ok (s', l'') => .ok (s ++ s', l'')

/-- `render_inner` over the items of a `List` token. -/
def renderItems : List ListItem → Int → Except String (String × Int)
  | [], l => .ok ("", l)
  | i :: rest, l =>
      match renderItem i l with
      | .error e => .error e
      | .ok (s, l') =>
        match renderItems rest l' with
        | .error e => .error e
        | .ok (s', l'') => .ok (s ++ s', l'')
end

/-- A document: optional front matter content and top-level blocks. -/
structure Document where
  front_matter : Option String
  children : List Block

/-- `LogseqRenderer.render_front_matter`. -/
def render_front_matter (content : String) : String :=
  "---" ++ linesep ++ content ++ "---" ++ linesep

/-- `LogseqRenderer.render_document`, invoked with `current_level = 0`
(a fresh renderer per `flat_markdown_to_outline` call). -/
def renderDocument (doc : Document) : Except String String :=
  let front_matter := match doc.front_matter with
    | some c => render_front_matter c
    | none => ""
  match renderBlocks doc.children 0 with
  | .error e => .error e
  | .ok (s, _) => .ok (front_matter ++ s)

mutual
/-- A block containing no `Heading` node anywhere (headings are the only
nodes that overwrite `current_level` instead of restoring it). -/
def headingFreeBlock : Block → Bool
  | .heading _ _ => false
  | .setextHeading _ => true
  | .paragraph _ => true
  | .quote children => headingFreeBlocks children
  | .blockCode _ _ => true
  | .thematicBreak => true
  | .list items => headingFreeItems items
  | .table _ _ => true

/-- `headingFreeBlock` over a list of blocks. -/
def headingFreeBlocks : List Block → Bool
  | [] => true
  | b :: rest => headingFreeBlock b && headingFreeBlocks rest

/-- `headingFreeBlock` over the children of each list item. -/
def headingFreeItems : List ListItem → Bool
  | [] => true
  | .mk _ children :: rest => headingFreeBlocks children && headingFreeItems rest
end

/-! ## Helper lemmas -/

theorem strMk_data (s : String) : String.mk s.data = s := by
  cases s
  rfl

theorem pyRepeatNat_spaces_mem (k : Nat) :
    ∀ c ∈ (pyRepeatNat "  " k).data, c = ' ' := by
  induction k with
  | zero =>
      intro c hc
      simp [pyRepeatNat] at hc
  | succ k ih =>
      intro c hc
      simp only [pyRepeatNat, String.data_append] at hc
      rcases List.mem_append.mp hc with h | h
      · simpa using h
      · exact ih c h

theorem dropWhile_append_of_all {p : Char → Bool} (xs ys : List Char)
    (h : ∀ c ∈ xs, p c = true) :
    List.dropWhile p (xs ++ ys) = List.dropWhile p ys := by
  induction xs with
  | nil => rfl
  | cons c cs ih =>
      simp only [List.cons_append, List.dropWhile, h c (by simp)]
      exact ih (fun d hd => h d (by simp [hd]))

theorem dropWhile_eq_self_of_head {p : Char → Bool} (xs : List Char)
    (h : ∀ c, xs.head? = some c → p c = false) :
    List.dropWhile p xs = xs := by
  cases xs with
  | nil => rfl
  | cons c cs => simp [List.dropWhile, h c rfl]

/-- The `lstrip` in `render_list_item` removes the whole
indentation-plus-bullet prefix when the remaining text does not itself start
with a dash or a space. -/
theorem pyLstrip_bullet_run (l : Int) (tail : String)
    (h₂ : tail.data.head? ≠ some '-') (h₃ : tail.data.head? ≠ some ' ') :
    pyLstrip ['-', ' '] (pyRepeat "  " l ++ bullet ++ tail) = tail := by
  unfold pyLstrip
  have hdata : (pyRepeat "  " l ++ bullet ++ tail).data
      = ((pyRepeat "  " l).data ++ ['-', ' ']) ++ tail.data := by
    simp [String.data_append, bullet, List.append_assoc]
  rw [hdata, dropWhile_append_of_all, dropWhile_eq_self_of_head, strMk_data]
  · intro c hc
    have : c ≠ '-' := fun h => h₂ (h ▸ hc)
    have h' : c ≠ ' ' := fun h => h₃ (h ▸ hc)
    simp [this, h']
  · intro c hc
    rcases List.mem_append.mp hc with h | h
    · have := pyRepeatNat_spaces_mem l.toNat c (by simpa [pyRepeat] using h)
      simp [this]
    · simp only [List.mem_cons, List.not_mem_nil, or_false] at h
      rcases h with h | h
      · simp [h]
      · simp [h]

mutual
/-- Rendering a heading-free block leaves `current_level` unchanged: every
decrement in the list/list-item rules is paired with a preceding increment. -/
theorem headingFreeBlock_level (b : Block) (hf : headingFreeBlock b = true) :
    ∀ (l : Int) (s : String) (l' : Int),
      renderBlock b l = Except.ok (s, l') → l' = l := by
  cases b with
  | heading level children => simp [headingFreeBlock] at hf
  | setextHeading children =>
      intro l s l' h
      simp [renderBlock] at h
      exact h.2.symm
  | paragraph children =>
      intro l s l' h
      simp [renderBlock] at h
      exact h.2.symm
  | quote children =>
      intro l s l' h
      simp only [headingFreeBlock] at hf
      cases heq : renderBlocks children l with
      | error e => simp [renderBlock, heq] at h
      | ok p =>
          obtain ⟨inner, l₂⟩ := p
          have h2 := headingFreeBlocks_level children hf l inner l₂ heq
          simp [renderBlock, heq] at h
          obtain ⟨-, h3⟩ := h
          omega
  | blockCode language children =>
      intro l s l' h
      match children with
      | [] => simp [renderBlock] at h
      | [content] =>
          simp [renderBlock] at h
          exact h.2.symm
      | c₁ :: c₂ :: cs => simp [renderBlock] at h
  | thematicBreak =>
      intro l s l' h
      simp [renderBlock] at h
      exact h.2.symm
  | list items =>
      intro l s l' h
      simp only [headingFreeBlock] at hf
      cases items with
      | nil =>
          simp [renderBlock, renderItems] at h
          exact h.2.symm
      | cons first rest =>
          by_cases hmem : first.leader ∈ CHARS_UL_LEADER
          · cases heq : renderItems (first :: rest) l with
            | error e => simp [renderBlock, hmem, heq] at h
            | ok p =>
                obtain ⟨inner, l₂⟩ := p
                have h2 := headingFreeItems_level (first :: rest) hf l inner l₂ heq
                simp [renderBlock, hmem, heq] at h
                obtain ⟨-, h3⟩ := h
                omega
          · cases heq : renderItems (first :: rest) (l + 1) with
            | error e => simp [renderBlock, hmem, heq] at h
            | ok p =>
                obtain ⟨inner, l₂⟩ := p
                have h2 := headingFreeItems_level (first :: rest) hf (l + 1) inner l₂ heq
                simp [renderBlock, hmem, heq] at h
                obtain ⟨-, h3⟩ := h
                omega
  | table header rows =>
      intro l s l' h
      simp [renderBlock] at h
      exact h.2.symm

/-- Rendering a heading-free item leaves `current_level` unchanged. -/
theorem headingFreeItem_level (leader : String) (children : List Block)
    (hf : headingFreeBlocks children = true) :
    ∀ (l : Int) (s : String) (l' : Int),
      renderItem (.mk leader children) l = Except.ok (s, l') → l' = l := by
  intro l s l' h
  by_cases hlen : children.length ≤ 1
  · simp only [renderItem, if_pos hlen] at h
    exact headingFreeBlocks_level children hf l s l' h
  · cases heq : renderBlocks children (l + 1) with
    | error e => simp [renderItem, hlen, heq] at h
    | ok p =>
        obtain ⟨inner, l₂⟩ := p
        have h2 := headingFreeBlocks_level children hf (l + 1) inner l₂ heq
        simp [renderItem, hlen, heq] at h
        obtain ⟨-, h3⟩ := h
        omega

/-- Rendering heading-free blocks in sequence leaves `current_level`
unchanged. -/
theorem headingFreeBlocks_level (bs : List Block)
    (hf : headingFreeBlocks bs = true) :
    ∀ (l : Int) (s : String) (l' : Int),
      renderBlocks bs l = Except.ok (s, l') → l' = l := by
  cases bs with
  | nil =>
      intro l s l' h
      simp [renderBlocks] at h
      exact h.2.symm
  | cons b rest =>
      intro l s l' h
      simp only [headingFreeBlocks, Bool.and_eq_true] at hf
      cases heq : renderBlock b l with
      | error e => simp [renderBlocks, heq] at h
      | ok p =>
          obtain ⟨s₀, l₀⟩ := p
          have hb := headingFreeBlock_level b hf.1 l s₀ l₀ heq
          cases heq2 : renderBlocks rest l₀ with
          | error e => simp [renderBlocks, heq, heq2] at h
          | ok q =>
              obtain ⟨s₁, l₁⟩ := q
              have hr := headingFreeBlocks_level rest hf.2 l₀ s₁ l₁ heq2
              simp [renderBlocks, heq, heq2] at h
              obtain ⟨-, h3⟩ := h
              omega

/-- Rendering heading-free items in sequence leaves `current_level`
unchanged. -/
theorem headingFreeItems_level (items : List ListItem)
    (hf : headingFreeItems items = true) :
    ∀ (l : Int) (s : String) (l' : Int),
      renderItems items l = Except.ok (s, l') → l' = l := by
  cases items with
  | nil =>
      intro l s l' h
      simp [renderItems] at h
      exact h.2.symm
  | cons first rest =>
      intro l s l' h
      cases first with
      | mk leader children =>
          simp only [headingFreeItems, Bool.and_eq_true] at hf
          cases heq : renderItem (.mk leader children) l with
          | error e => simp [renderItems, heq] at h
          | ok p =>
              obtain ⟨s₀, l₀⟩ := p
              have hi := headingFreeItem_level leader children hf.1 l s₀ l₀ heq
              cases heq2 : renderItems rest l₀ with
              | error e => simp [renderItems, heq, heq2] at h
              | ok q =>
                  obtain ⟨s₁, l₁⟩ := q
                  have hr := headingFreeItems_level rest hf.2 l₀ s₁ l₁ heq2
                  simp [renderItems, heq, heq2] at h
                  obtain ⟨-, h3⟩ := h
                  omega
end

theorem foldl_append_eq (rest : List String) :
    ∀ a : String, rest.foldl (· ++ ·) a = a ++ String.join rest := by
  induction rest with
  | nil =>
      intro a
      show a = a ++ String.join []
      rw [show String.join [] = "" from rfl, String.append_empty]
  | cons s rest ih =>
      intro a
      show rest.foldl (· ++ ·) (a ++ s) = a ++ String.join (s :: rest)
      rw [ih (a ++ s)]
      have hj : String.join (s :: rest) = s ++ String.join rest := by
        show rest.foldl (· ++ ·) ("" ++ s) = s ++ String.join rest
        rw [ih ("" ++ s), String.empty_append]
      rw [hj, String.append_assoc]

theorem String_join_cons (s : String) (rest : List String) :
    String.join (s :: rest) = s ++ String.join rest := by
  show rest.foldl (· ++ ·) ("" ++ s) = s ++ String.join rest
  rw [foldl_append_eq rest ("" ++ s), String.empty_append]

/-- Rendering a run of paragraphs at a fixed level: each paragraph is emitted
at that level and the level is unchanged. -/
theorem renderBlocks_paragraphs (ps : List (List Inline)) (l : Int) :
    renderBlocks (ps.map Block.paragraph) l
      = Except.ok
          (String.join (ps.map (fun pch =>
            pyJoin linesep
                ((pySplitlines (pyStrip (renderInlines pch))).map
                  (fun line => outline l line false false))
              ++ linesep)), l) := by
  induction ps with
  | nil => rfl
  | cons p rest ih =>
      simp [renderBlocks, renderBlock, ih, String_join_cons, String.append_assoc]

/-! ## Claim theorems -/

/-- C1 (counterexample): after a level-1 ATX heading, the immediately
following paragraph sibling is rendered at depth 1 (one two-space unit of
indentation), not at the claimed depth `L-1 = 0`: the heading rule sets
`current_level` to `level`, not `level - 1`. -/
theorem C1_heading_sibling_depth_counterexample :
    renderBlocks [.heading 1 [.rawText "T"], .paragraph [.rawText "P"]] 0
      = Except.ok ("- # T\n  - P\n", 1)
    ∧ "- # T\n  - P\n" ≠ "- # T\n" ++ "- P\n" :=
  ⟨rfl, by decide⟩

/-- C1 (amended): for every ATX heading of level L, the rendered heading is a
bullet indented with exactly `L-1` two-space units whose text is L `#`
characters, a space and the rendered inline content; every immediately
following non-heading sibling (here: any run of paragraphs, until a next
heading would change the level) is rendered at depth `L`, one deeper than
the heading's own bullet. -/
theorem C1_heading_and_sibling_depth (L : Nat) (hch : List Inline)
    (ps : List (List Inline)) (l : Int) :
    renderBlocks (.heading L hch :: ps.map Block.paragraph) l
      = Except.ok
          (outline ((L : Int) - 1)
              (pyRepeat "#" (L : Int) ++ " " ++ renderInlines hch)
            ++ String.join (ps.map (fun pch =>
                pyJoin linesep
                    ((pySplitlines (pyStrip (renderInlines pch))).map
                      (fun line => outline (L : Int) line false false))
                  ++ linesep)),
           (L : Int)) := by
  simp [renderBlocks, renderBlock, renderBlocks_paragraphs]

/-- C2: a list item with two or more child blocks renders its children with
the depth increased by exactly 1 and restores it afterwards; the re-wrap
peels the indentation-plus-bullet prefix off the first rendered line and
re-emits the whole block as a single bullet at the item's own depth, so the
first line appears at the item's depth while the remaining content stays
exactly one depth deeper. -/
theorem C2_list_item_rewrap (leader : String) (c₁ c₂ : Block) (cs : List Block)
    (l : Int) (tail : String)
    (h : renderBlocks (c₁ :: c₂ :: cs) (l + 1)
          = Except.ok (pyRepeat "  " (l + 1) ++ bullet ++ tail, l + 1))
    (h₂ : tail.data.head? ≠ some '-') (h₃ : tail.data.head? ≠ some ' ') :
    renderItem (.mk leader (c₁ :: c₂ :: cs)) l
      = Except.ok (pyRepeat "  " l ++ bullet ++ tail, l) := by
  have hlen : ¬((c₁ :: c₂ :: cs).length ≤ 1) := by simp
  simp only [renderItem, if_neg hlen, h]
  rw [pyLstrip_bullet_run (l + 1) tail h₂ h₃]
  simp [outline, add_sub_cancel_right]

/-- C2 witness: the nested-list scenario `- a` with child `- b`. -/
theorem C2_list_item_rewrap_witness :
    renderItem (.mk "-" [.paragraph [.rawText "a"], .paragraph [.rawText "b"]]) 0
      = Except.ok ("- a\n  - b\n", 0) :=
  (C2_list_item_rewrap "-" (.paragraph [.rawText "a"]) (.paragraph [.rawText "b"])
      [] 0 "a\n  - b\n" rfl (by decide) (by decide)).trans rfl

/-- C3: orderedness of a list is decided by the first item's leader (`*` or
`-` means unordered, anything else ordered); an unordered list renders
exactly its items at the list's own depth with no marker line; an ordered
list emits the literal ordered-list marker bullet at the current depth, then
renders all items with the depth increased by 1, then restores the depth. -/
theorem C3_render_list_spec :
    (∀ (first : ListItem) (rest : List ListItem) (l : Int),
        first.leader ∈ CHARS_UL_LEADER →
        renderBlock (.list (first :: rest)) l = renderItems (first :: rest) l)
  ∧ (∀ (first : ListItem) (rest : List ListItem) (l : Int) (s : String),
        first.leader ∉ CHARS_UL_LEADER →
        renderItems (first :: rest) (l + 1) = Except.ok (s, l + 1) →
        renderBlock (.list (first :: rest)) l
          = Except.ok (outline l OL_MARKER ++ s, l)) := by
  constructor
  · intro first rest l hmem
    cases heq : renderItems (first :: rest) l with
    | error e => simp [renderBlock, hmem, heq]
    | ok p =>
        obtain ⟨inner, l₂⟩ := p
        simp [renderBlock, hmem, heq]
  · intro first rest l s hmem heq
    simp [renderBlock, hmem, heq, add_sub_cancel_right]

/-- C3 witness: an unordered one-item list and an ordered one-item list. -/
theorem C3_render_list_spec_witness :
    renderBlock (.list [.mk "-" [.paragraph [.rawText "a"]]]) 0
        = renderItems [.mk "-" [.paragraph [.rawText "a"]]] 0
  ∧ renderBlock (.list [.mk "1." [.paragraph [.rawText "a"]]]) 0
        = Except.ok ("- #.ol\n  - a\n", 0) :=
  ⟨C3_render_list_spec.1 (.mk "-" [.paragraph [.rawText "a"]]) [] 0 (by decide),
   (C3_render_list_spec.2 (.mk "1." [.paragraph [.rawText "a"]]) [] 0 "  - a\n"
      (by decide) rfl).trans rfl⟩

/-- C4: the quote rule renders its children at the current depth and then,
for every non-empty line of the rendered text, splices a `"> "` token in at
column `current_depth * 2 + 2` (right after the bullet or continuation
marker), keeping everything to the left unchanged and pushing the rest of
the line right; empty lines pass through unchanged. -/
theorem C4_render_quote_spec (children : List Block) (l : Int) (inner : String)
    (h : renderBlocks children l = Except.ok (inner, l)) :
    renderBlock (.quote children) l
      = Except.ok
          (pyJoin linesep ((pySplitChar '\n' inner).map (fun line =>
            if line = "" then ""
            else pySliceTo line (l * 2 + 2) ++ "> "
              ++ pySliceFrom line (l * 2 + 2))), l) := by
  simp [renderBlock, h, ite_not]

/-- C4 witness: a quoted paragraph at depth 0. -/
theorem C4_render_quote_spec_witness :
    renderBlock (.quote [.paragraph [.rawText "q"]]) 0
      = Except.ok ("- > q\n", 0) :=
  (C4_render_quote_spec [.paragraph [.rawText "q"]] 0 "- q\n" rfl).trans rfl

/-- C5 (counterexample): a table whose single body row has two cells against
a one-cell header renders successfully to a bullet — a cell-count mismatch
is not checked and does not fail. -/
theorem C5_table_mismatch_no_failure :
    renderBlock (.table (some [[.rawText "A"]])
        [[[.rawText "1"], [.rawText "2"]]]) 0
      = Except.ok ("- | A |\n  | --- |\n  | 1 | 2 |\n", 0) := rfl

/-- C5 (amended): a code block without exactly one content child fails
immediately with a diagnostic naming the offending node kind
(`BlockCode`) and produces no partial output; a table row whose cell count
mismatches the header is rendered without any failure. -/
theorem C5_block_code_assert_spec :
    (∀ (language : String) (children : List String) (l : Int),
        children.length ≠ 1 →
        renderBlock (.blockCode language children) l
          = Except.error "BlockCode should have only one child.")
  ∧ renderBlock (.table (some [[.rawText "A"]])
        [[[.rawText "1"], [.rawText "2"]]]) 0
      = Except.ok ("- | A |\n  | --- |\n  | 1 | 2 |\n", 0) := by
  constructor
  · intro language children l hlen
    cases children with
    | nil => rfl
    | cons c cs =>
        cases cs with
        | nil => simp at hlen
        | cons c₂ cs₂ => rfl
  · rfl

/-- C5 witness: a code block with zero content children fails the assert. -/
theorem C5_block_code_assert_spec_witness :
    renderBlock (.blockCode "python" []) 0
      = Except.error "BlockCode should have only one child." :=
  C5_block_code_assert_spec.1 "python" [] 0 (by decide)

/-- C6: a code block with a single content child renders as one opening
bullet line at the current depth reading ```` ```<language> ````, then every
content line verbatim as a continuation line at the same indentation, then a
closing ```` ``` ```` continuation line — all inside one single bullet (the
whole fenced body is the text of one `outline` bullet call), never separate
bullets per code line. -/
theorem C6_block_code_single_bullet (language content : String) (l : Int) :
    renderBlock (.blockCode language [content]) l
      = Except.ok
          (pyRepeat "  " l ++ bullet ++ ("```" ++ language) ++ linesep
            ++ String.join ((pySplitlines content).map
                 (fun line => pyRepeat "  " l ++ continuation ++ line ++ linesep))
            ++ (pyRepeat "  " l ++ continuation ++ "```" ++ linesep)
            ++ linesep, l) := by
  simp [renderBlock, outline, String.append_assoc]

/-- C7: `render_strikethrough` emits the rendered children with no
surrounding markers — the strikethrough marker pair is dropped, unlike the
`**`/`*` wrapping done for strong and emphasis. -/
theorem C7_strikethrough_drops_markers :
    (∀ children : List Inline,
        renderInline (.strikethrough children) = renderInlines children)
  ∧ renderInline (.strikethrough [.rawText "x"]) = "x" :=
  ⟨fun _ => rfl, rfl⟩

/-- C8: the 2-column table with header cells A and B and one body row with
cells 1 and 2 renders as one bullet containing the header row, a separator
continuation line with two `---` segments, and one data-row continuation
line; header and body rows use the identical cell rendering `| content `
concatenated across cells with a trailing `|`. -/
theorem C8_table_concrete_render :
    renderBlock (.table (some [[.rawText "A"], [.rawText "B"]])
        [[[.rawText "1"], [.rawText "2"]]]) 0
      = Except.ok ("- | A | B |\n  | --- | --- |\n  | 1 | 2 |\n", 0)
  ∧ (∀ (l : Int) (row : TableRow),
        render_table_row l row false
          = outline l (String.join (row.map render_table_cell) ++ "|") true
      ∧ render_table_row l row true
          = String.join (row.map render_table_cell) ++ "|" ++ linesep
            ++ outline l (pyRepeat "| --- " (row.length : Int) ++ "|") true) :=
  ⟨rfl, fun _ _ => ⟨rfl, rfl⟩⟩

/-- C9 (counterexample): the depth counter can go negative: an ordered list
whose single item holds an ordered list whose single item is a level-1
heading ends the render with `current_level = -1` (each ordered list
decrements after its items, but the heading overwrote the level to 1). -/
theorem C9_depth_negative_counterexample :
    renderBlock (.list [.mk "1." [.list [.mk "1." [.heading 1 [.rawText "H"]]]]]) 0
      = Except.ok ("- #.ol\n  - #.ol\n- # H\n", -1)
  ∧ (-1 : Int) < 0 :=
  ⟨rfl, by decide⟩

/-- C9 (amended): starting from the initial depth 0, if every top-level
block is either a heading of level ≥ 1 or contains no heading anywhere, the
depth after rendering every top-level prefix of the document is ≥ 0:
headings set the depth to their (positive) level, and every decrement in the
list and list-item rules is paired with a preceding increment, leaving
heading-free blocks depth-neutral. -/
theorem C9_depth_nonneg_top_level :
    ∀ (bs : List Block) (l : Int),
      (∀ b ∈ bs, (∃ L ch, b = Block.heading L ch ∧ 1 ≤ L)
        ∨ headingFreeBlock b = true) →
      0 ≤ l →
      ∀ (s : String) (l' : Int),
        renderBlocks bs l = Except.ok (s, l') → 0 ≤ l' := by
  intro bs
  induction bs with
  | nil =>
      intro l _ hl s l' h
      simp [renderBlocks] at h
      obtain ⟨-, h2⟩ := h
      omega
  | cons b rest ih =>
      intro l hall hl s l' h
      cases heq : renderBlock b l with
      | error e => simp [renderBlocks, heq] at h
      | ok p =>
          obtain ⟨s₀, l₀⟩ := p
          have h0 : 0 ≤ l₀ := by
            rcases hall b (by simp) with ⟨L, ch, rfl, hL⟩ | hfree
            · simp [renderBlock] at heq
              obtain ⟨-, h2⟩ := heq
              omega
            · have := headingFreeBlock_level b hfree l s₀ l₀ heq
              omega
          cases heq2 : renderBlocks rest l₀ with
          | error e => simp [renderBlocks, heq, heq2] at h
          | ok q =>
              obtain ⟨s₁, l₁⟩ := q
              have hr := ih l₀ (fun b' hb' => hall b' (by simp [hb'])) h0 s₁ l₁ heq2
              simp [renderBlocks, heq, heq2] at h
              obtain ⟨-, h2⟩ := h
              omega

/-- C9 witness: a level-1 heading leaves the depth at 1 ≥ 0. -/
theorem C9_depth_nonneg_top_level_witness :
    renderBlocks [.heading 1 [.rawText "T"]] 0 = Except.ok ("- # T\n", 1)
  ∧ (0 : Int) ≤ 1 :=
  ⟨rfl,
   C9_depth_nonneg_top_level [.heading 1 [.rawText "T"]] 0
     (by
       intro b hb
       simp only [List.mem_singleton] at hb
       subst hb
       exact Or.inl ⟨1, [.rawText "T"], rfl, le_refl 1⟩)
     (by decide) "- # T\n" 1 rfl⟩

/-- C10: the peeling step of the list-item re-wrap removes the maximal
leading run of `-` and `' '` characters of the rendered children (Python
`lstrip` with a character set), not just the single
indentation-plus-bullet-marker prefix: an item whose first rendered line is
a thematic break `---` loses those dashes entirely (the concrete render
below shows `- ` followed by an empty rest-of-line where `---` stood). -/
theorem C10_list_item_lstrip_maximal :
    (∀ (leader : String) (c₁ c₂ : Block) (cs : List Block) (l : Int)
        (inner : String) (l' : Int),
        renderBlocks (c₁ :: c₂ :: cs) (l + 1) = Except.ok (inner, l') →
        renderItem (.mk leader (c₁ :: c₂ :: cs)) l
          = Except.ok
              (outline (l' - 1) (pyLstrip ['-', ' '] inner) false false,
               l' - 1))
  ∧ renderItem (.mk "-" [.thematicBreak, .paragraph [.rawText "y"]]) 0
      = Except.ok ("- \n  - y\n", 0) := by
  constructor
  · intro leader c₁ c₂ cs l inner l' h
    have hlen : ¬((c₁ :: c₂ :: cs).length ≤ 1) := by simp
    simp [renderItem, hlen, h]
  · rfl

/-- C10 witness: a two-paragraph item at depth 0, peeled and re-wrapped. -/
theorem C10_list_item_lstrip_maximal_witness :
    renderItem (.mk "x" [.paragraph [.rawText "a"], .paragraph [.rawText "b"]]) 0
      = Except.ok ("- a\n  - b\n", 0) :=
  (C10_list_item_lstrip_maximal.1 "x" (.paragraph [.rawText "a"])
      (.paragraph [.rawText "b"]) [] 0 "  - a\n  - b\n" 1 rfl).trans rfl

end LogseqDoctor
